import Mathlib

/-!
Verification of the CryptoBot core pipeline (`src/crypto_signal_bot.py`):
the indicator engine `compute_indicators` and the classifier
`generate_signal`.  Floating-point values are embedded as rationals;
the NaN "undefined" sentinel is embedded as `Option.none`.
-/

/-! ## IndicatorEngine: spec-modelled indicator algorithms

`compute_indicators` (source lines 24-46) computes its columns through the
external `ta` library (`SMAIndicator`, `RSIIndicator`, `MACD`), whose
implementations are not part of this repository.  The algorithms below are
therefore modelled from the spec (section 4.1). -/

/-- Arithmetic mean of a list of rationals. -/
def mean (xs : List ℚ) : ℚ := xs.sum / xs.length

/-- Modelled from the spec: SMA(window=w) of the `ta` library's
`SMAIndicator.sma_indicator` — for row i, the arithmetic mean of the
trailing w closes ending at i inclusive; undefined for i < w-1. -/
def smaCell (w : ℕ) (closes : List ℚ) (i : ℕ) : Option ℚ :=
  if w ≤ i + 1 then some (mean ((closes.take (i + 1)).drop (i + 1 - w)))
  else none

/-- Close-to-close gains: entry k is max(close[k+1] - close[k], 0). -/
def gains (closes : List ℚ) : List ℚ :=
  (closes.zip closes.tail).map (fun p => max (p.2 - p.1) 0)

/-- Close-to-close losses: entry k is max(close[k] - close[k+1], 0). -/
def losses (closes : List ℚ) : List ℚ :=
  (closes.zip closes.tail).map (fun p => max (p.1 - p.2) 0)

/-- Wilder's moving average of a series: seeded with the simple average of
the first w points, then smoothed by avg := (avg*(w-1) + x)/w over the
next k points. -/
def wilderSmooth (w : ℕ) (xs : List ℚ) (k : ℕ) : ℚ :=
  ((xs.drop w).take k).foldl (fun acc x => (acc * ((w : ℚ) - 1) + x) / w)
    (mean (xs.take w))

/-- Modelled from the spec: RSI(window=w) of the `ta` library's
`RSIIndicator.rsi` — Wilder-style index over trailing w periods of
close-to-close changes, undefined until w periods of change data exist
(i.e. for rows i < w).  With g and l the Wilder-smoothed average gain and
loss, the value is 100*g/(g+l), the standard form of 100 - 100/(1+g/l). -/
def rsiCell (w : ℕ) (closes : List ℚ) (i : ℕ) : Option ℚ :=
  if w ≤ i then
    let g := wilderSmooth w (gains closes) (i - w)
    let l := wilderSmooth w (losses closes) (i - w)
    some (100 * g / (g + l))
  else none

/-- Exponential moving average with smoothing factor 2/(n+1), seeded with
the simple average of the first n points, at row i of the series
(meaningful for i >= n-1). -/
def emaVal (n : ℕ) (xs : List ℚ) (i : ℕ) : ℚ :=
  ((xs.drop n).take (i + 1 - n)).foldl
    (fun acc x => (2 / ((n : ℚ) + 1)) * x + (1 - 2 / ((n : ℚ) + 1)) * acc)
    (mean (xs.take n))

/-- Modelled from the spec: the MACD line of the `ta` library's
`MACD.macd` — EMA(close, fast) - EMA(close, slow), undefined until both
EMAs have enough history (rows i with i + 1 < max fast slow). -/
def macdCell (f s : ℕ) (closes : List ℚ) (i : ℕ) : Option ℚ :=
  if max f s ≤ i + 1 then some (emaVal f closes i - emaVal s closes i)
  else none

/-- The sequence of defined MACD values, starting at the first row where
the MACD line is defined. -/
def macdSeq (f s : ℕ) (closes : List ℚ) : List ℚ :=
  (List.range (closes.length - (max f s - 1))).map
    (fun p => emaVal f closes (max f s - 1 + p)
      - emaVal s closes (max f s - 1 + p))

/-- Modelled from the spec: the MACD signal line of the `ta` library's
`MACD.macd_signal` — EMA of the MACD line with window g, seeded on the
first g defined MACD values, undefined until the slow EMA and then the
signal EMA have enough history. -/
def signalCell (f s g : ℕ) (closes : List ℚ) (i : ℕ) : Option ℚ :=
  if max f s + g ≤ i + 2 then
    some (emaVal g (macdSeq f s closes) (i + 1 - max f s))
  else none

/-- Modelled from the spec: the MACD histogram of the `ta` library's
`MACD.macd_diff` — macd - macd_signal wherever both are defined. -/
def histCell (f s g : ℕ) (closes : List ℚ) (i : ℕ) : Option ℚ :=
  match macdCell f s closes i, signalCell f s g closes i with
  | some m, some sv => some (m - sv)
  | _, _ => none

/-- One column entry per input bar. -/
def smaColumn (w : ℕ) (closes : List ℚ) : List (Option ℚ) :=
  (List.range closes.length).map (smaCell w closes)

/-- One column entry per input bar. -/
def rsiColumn (w : ℕ) (closes : List ℚ) : List (Option ℚ) :=
  (List.range closes.length).map (rsiCell w closes)

/-- One column entry per input bar. -/
def macdColumn (f s : ℕ) (closes : List ℚ) : List (Option ℚ) :=
  (List.range closes.length).map (macdCell f s closes)

/-- One column entry per input bar. -/
def signalColumn (f s g : ℕ) (closes : List ℚ) : List (Option ℚ) :=
  (List.range closes.length).map (signalCell f s g closes)

/-- One column entry per input bar. -/
def histColumn (f s g : ℕ) (closes : List ℚ) : List (Option ℚ) :=
  (List.range closes.length).map (histCell f s g closes)

/-! ## DataFrame model and `compute_indicators` -/

/-- A pandas DataFrame as `compute_indicators` uses it: the close column
(the only base column the indicators read) plus the indicator columns
assigned by name; an assignment prepends, lookup takes the most recent. -/
structure DataFrame where
  close : List ℚ
  cols : List (String × List (Option ℚ))
deriving DecidableEq, Inhabited

/-- Column assignment df[name] = values. -/
def setCol (df : DataFrame) (name : String) (v : List (Option ℚ)) :
    DataFrame :=
  ⟨df.close, (name, v) :: df.cols⟩

/-- Column lookup df[name] for assigned indicator columns. -/
def getCol (df : DataFrame) (name : String) : Option (List (Option ℚ)) :=
  (df.cols.find? (fun p => p.1 == name)).map Prod.snd

/-- The f-string column key f"sma_{w}" used at source lines 30-31. -/
def smaColName (w : ℕ) : String := "sma_" ++ toString w

/-- `compute_indicators`, source lines 24-46: copies the input frame and
assigns the six indicator columns, each computed from the close column,
in source order.  The copy itself is modelled explicitly in the heap
semantics `compute_indicators_st` below; here the function is the pure
value-level result. -/
def compute_indicators (df : DataFrame)
    (sma_fast sma_slow rsi_period macd_fast macd_slow macd_sig : ℕ) :
    DataFrame :=
  let df := setCol df (smaColName sma_fast) (smaColumn sma_fast df.close)
  let df := setCol df (smaColName sma_slow) (smaColumn sma_slow df.close)
  let df := setCol df "rsi" (rsiColumn rsi_period df.close)
  let df := setCol df "macd" (macdColumn macd_fast macd_slow df.close)
  let df := setCol df "macd_signal"
    (signalColumn macd_fast macd_slow macd_sig df.close)
  let df := setCol df "macd_hist"
    (histColumn macd_fast macd_slow macd_sig df.close)
  df

/-! ## Heap semantics for the copy at source line 28

Python dataframes are mutable heap objects; `df = df.copy()` allocates a
fresh object and the later `df[...] = ...` assignments mutate only that
copy.  The heap is a list of dataframes addressed by index. -/

/-- Mutable heap of dataframes. -/
abbrev Heap := List DataFrame

/-- df.copy(): allocate a fresh copy of the object at address r, returning
the new heap and the fresh address. -/
def dfCopy (h : Heap) (r : ℕ) : Heap × ℕ :=
  (h ++ [h.getD r default], h.length)

/-- In-place column assignment on the object at address r. -/
def heapSetCol (h : Heap) (r : ℕ) (name : String) (v : List (Option ℚ)) :
    Heap :=
  h.set r (setCol (h.getD r default) name v)

/-- `compute_indicators` with the heap explicit: read the argument at
address r, copy it (line 28), then perform the six in-place column
assignments on the copy, each reading the close column of the current
copy; returns the final heap and the address of the result. -/
def compute_indicators_st (h : Heap) (r : ℕ)
    (sma_fast sma_slow rsi_period macd_fast macd_slow macd_sig : ℕ) :
    Heap × ℕ :=
  let p := dfCopy h r
  let h := p.1
  let r := p.2
  let h := heapSetCol h r (smaColName sma_fast)
    (smaColumn sma_fast (h.getD r default).close)
  let h := heapSetCol h r (smaColName sma_slow)
    (smaColumn sma_slow (h.getD r default).close)
  let h := heapSetCol h r "rsi"
    (rsiColumn rsi_period (h.getD r default).close)
  let h := heapSetCol h r "macd"
    (macdColumn macd_fast macd_slow (h.getD r default).close)
  let h := heapSetCol h r "macd_signal"
    (signalColumn macd_fast macd_slow macd_sig (h.getD r default).close)
  let h := heapSetCol h r "macd_hist"
    (histColumn macd_fast macd_slow macd_sig (h.getD r default).close)
  (h, r)

/-! ## Data model -/

/-- The latest indicator row handed to `generate_signal` (a pandas Series in
the source): the close price plus the five indicator fields it reads.
An undefined (NaN) field is `none`. -/
structure IndicatorRow where
  close : ℚ
  sma_fast : Option ℚ
  sma_slow : Option ℚ
  rsi : Option ℚ
  macd : Option ℚ
  macd_signal : Option ℚ
deriving DecidableEq

/-- The dict returned by `generate_signal` (source lines 107-118):
`overall_signal` plus the details mapping, with its keys as fields. -/
structure SignalVerdict where
  overall_signal : String
  sma_bias : String
  rsi_bias : String
  macd_bias : String
  price : ℚ
  rsi : Option ℚ
  macd : Option ℚ
  macd_signal : Option ℚ
deriving DecidableEq

/-! ## SignalClassifier: `generate_signal`, source lines 49-118

The source builds `signal_votes` by three inline conditional blocks (SMA,
RSI, MACD, in that order), each appending +1 or -1 when it casts a vote.
Each block is embedded as a function returning the bias label together
with the optional vote (`none` = no vote appended); the full votes list
is their concatenation in source order. -/

/-- SMA block, source lines 54-67: NaN in either value gives bias
"neutral" and no vote; otherwise fast > slow is bullish (+1),
fast < slow is bearish (-1), equality is neutral with no vote. -/
def smaVote (f s : Option ℚ) : String × Option ℤ :=
  match f, s with
  | some fv, some sv =>
    if fv > sv then ("bullish", some 1)
    else if fv < sv then ("bearish", some (-1))
    else ("neutral", none)
  | _, _ => ("neutral", none)

/-- RSI block, source lines 69-80: NaN gives bias "neutral" and no vote;
otherwise rsi > upper is overbought (-1), rsi < lower is oversold (+1),
otherwise neutral with no vote. -/
def rsiVote (r : Option ℚ) (upper lower : ℚ) : String × Option ℤ :=
  match r with
  | some rv =>
    if rv > upper then ("overbought", some (-1))
    else if rv < lower then ("oversold", some 1)
    else ("neutral", none)
  | none => ("neutral", none)

/-- MACD block, source lines 82-94: NaN in either value gives bias
"neutral" and no vote; otherwise macd > macd_signal is bullish (+1),
macd < macd_signal is bearish (-1), equality is neutral with no vote. -/
def macdVote (m ms : Option ℚ) : String × Option ℤ :=
  match m, ms with
  | some mv, some sv =>
    if mv > sv then ("bullish", some 1)
    else if mv < sv then ("bearish", some (-1))
    else ("neutral", none)
  | _, _ => ("neutral", none)

/-- The `signal_votes` list accumulated by `generate_signal`:
the cast votes of the three blocks in source order. -/
def votesOf (row : IndicatorRow) (upper lower : ℚ) : List ℤ :=
  (smaVote row.sma_fast row.sma_slow).2.toList
    ++ (rsiVote row.rsi upper lower).2.toList
    ++ (macdVote row.macd row.macd_signal).2.toList

/-- Aggregation, source lines 96-105: empty votes list gives "neutral";
otherwise score > 0 gives "strong_buy" when score >= 2 else "buy",
score < 0 gives "strong_sell" when score <= -2 else "sell",
and score = 0 gives "neutral". -/
def overallOf (votes : List ℤ) : String :=
  if votes = [] then "neutral"
  else
    let score := votes.sum
    if 0 < score then (if 2 ≤ score then "strong_buy" else "buy")
    else if score < 0 then (if score ≤ -2 then "strong_sell" else "sell")
    else "neutral"

/-- `generate_signal`, source lines 49-118.  The `sma_fast`/`sma_slow`
window parameters of the source serve only to select the row's columns by
name; with the row embedded as a structure they become field accesses. -/
def generate_signal (latest : IndicatorRow) (rsi_upper rsi_lower : ℚ) :
    SignalVerdict :=
  { overall_signal := overallOf (votesOf latest rsi_upper rsi_lower)
    sma_bias := (smaVote latest.sma_fast latest.sma_slow).1
    rsi_bias := (rsiVote latest.rsi rsi_upper rsi_lower).1
    macd_bias := (macdVote latest.macd latest.macd_signal).1
    price := latest.close
    rsi := latest.rsi
    macd := latest.macd
    macd_signal := latest.macd_signal }

/-- The aggregation rule in the words of the spec: zero cast votes give
"neutral"; otherwise score >= 2 gives "strong_buy", score = 1 gives "buy",
score <= -2 gives "strong_sell", score = -1 gives "sell", and the
remaining case (score = 0 with at least one vote cast) gives "neutral". -/
def specAggregate (votes : List ℤ) : String :=
  if votes = [] then "neutral"
  else if 2 ≤ votes.sum then "strong_buy"
  else if votes.sum = 1 then "buy"
  else if votes.sum ≤ -2 then "strong_sell"
  else if votes.sum = -1 then "sell"
  else "neutral"

/-! ## Theorems -/

lemma overallOf_eq_specAggregate (v : List ℤ) : overallOf v = specAggregate v := by
  unfold overallOf specAggregate
  by_cases hv : v = []
  · simp [hv]
  · simp only [hv, if_false]
    split_ifs <;> first | rfl | omega

/-- C1. For every IndicatorRow, `generate_signal` aggregates only the cast
votes: zero cast votes give overall "neutral"; otherwise with
score = sum of cast votes, score >= 2 gives "strong_buy", score = 1 gives
"buy", score <= -2 gives "strong_sell", score = -1 gives "sell", and
score = 0 with at least one vote cast gives "neutral". -/
theorem generate_signal_aggregates_cast_votes (row : IndicatorRow)
    (upper lower : ℚ) :
    (generate_signal row upper lower).overall_signal
      = specAggregate (votesOf row upper lower) := by
  simpa [generate_signal] using
    overallOf_eq_specAggregate (votesOf row upper lower)

/-- C5. The overall signal produced by `generate_signal` is always one of
the defined categorical labels: it lies in the five aggregation
categories strong_buy, buy, neutral, sell, strong_sell. -/
theorem generate_signal_overall_mem_categories (row : IndicatorRow)
    (upper lower : ℚ) :
    (generate_signal row upper lower).overall_signal
      ∈ ["strong_buy", "buy", "neutral", "sell", "strong_sell"] := by
  show overallOf (votesOf row upper lower) ∈ _
  rw [overallOf_eq_specAggregate]
  unfold specAggregate
  split_ifs <;> simp

/-- C3. An undefined (NaN) indicator field makes `generate_signal` report
that indicator's bias as "neutral" and exclude its vote entirely: the
vote is `none`, so it contributes nothing to the cast-votes list (neither
to the score nor to the count of cast votes). -/
theorem generate_signal_excludes_undefined (row : IndicatorRow)
    (upper lower : ℚ) :
    (row.sma_fast = none ∨ row.sma_slow = none →
      (generate_signal row upper lower).sma_bias = "neutral" ∧
      (smaVote row.sma_fast row.sma_slow).2 = none ∧
      votesOf row upper lower
        = (rsiVote row.rsi upper lower).2.toList
            ++ (macdVote row.macd row.macd_signal).2.toList) ∧
    (row.rsi = none →
      (generate_signal row upper lower).rsi_bias = "neutral" ∧
      (rsiVote row.rsi upper lower).2 = none ∧
      votesOf row upper lower
        = (smaVote row.sma_fast row.sma_slow).2.toList
            ++ (macdVote row.macd row.macd_signal).2.toList) ∧
    (row.macd = none ∨ row.macd_signal = none →
      (generate_signal row upper lower).macd_bias = "neutral" ∧
      (macdVote row.macd row.macd_signal).2 = none ∧
      votesOf row upper lower
        = (smaVote row.sma_fast row.sma_slow).2.toList
            ++ (rsiVote row.rsi upper lower).2.toList) := by
  refine ⟨fun h => ?_, fun h => ?_, fun h => ?_⟩
  · have hv : smaVote row.sma_fast row.sma_slow = ("neutral", none) := by
      rcases h with h | h <;> rw [h] <;> unfold smaVote <;>
        cases row.sma_fast <;> cases row.sma_slow <;> rfl
    exact ⟨by simp [generate_signal, hv], by simp [hv],
      by simp [votesOf, hv]⟩
  · have hv : rsiVote row.rsi upper lower = ("neutral", none) := by
      rw [h]; rfl
    exact ⟨by simp [generate_signal, hv], by simp [hv],
      by simp [votesOf, hv]⟩
  · have hv : macdVote row.macd row.macd_signal = ("neutral", none) := by
      rcases h with h | h <;> rw [h] <;> unfold macdVote <;>
        cases row.macd <;> cases row.macd_signal <;> rfl
    exact ⟨by simp [generate_signal, hv], by simp [hv],
      by simp [votesOf, hv]⟩

/-- C3 witness: a row in which every indicator field is undefined. -/
theorem generate_signal_excludes_undefined_witness :
    let row : IndicatorRow := ⟨10, none, none, none, none, none⟩
    (generate_signal row 70 30).sma_bias = "neutral" ∧
    (generate_signal row 70 30).rsi_bias = "neutral" ∧
    (generate_signal row 70 30).macd_bias = "neutral" ∧
    votesOf row 70 30 = [] := by
  intro row
  have h := generate_signal_excludes_undefined row 70 30
  have h1 := h.1 (Or.inl rfl)
  have h2 := h.2.1 rfl
  have h3 := h.2.2 (Or.inl rfl)
  exact ⟨h1.1, h2.1, h3.1, by decide⟩

/-- C4. Exact ties are neutral and uncounted: with defined values,
sma_fast = sma_slow gives SMA bias "neutral" with no vote cast, and
macd = macd_signal gives MACD bias "neutral" with no vote cast. -/
theorem generate_signal_ties_neutral (row : IndicatorRow)
    (upper lower : ℚ) (a b : ℚ) :
    (row.sma_fast = some a → row.sma_slow = some a →
      (generate_signal row upper lower).sma_bias = "neutral" ∧
      (smaVote row.sma_fast row.sma_slow).2 = none) ∧
    (row.macd = some b → row.macd_signal = some b →
      (generate_signal row upper lower).macd_bias = "neutral" ∧
      (macdVote row.macd row.macd_signal).2 = none) := by
  constructor
  · intro h1 h2
    have hv : smaVote row.sma_fast row.sma_slow = ("neutral", none) := by
      rw [h1, h2]; simp [smaVote]
    exact ⟨by simp [generate_signal, hv], by simp [hv]⟩
  · intro h1 h2
    have hv : macdVote row.macd row.macd_signal = ("neutral", none) := by
      rw [h1, h2]; simp [macdVote]
    exact ⟨by simp [generate_signal, hv], by simp [hv]⟩

/-- C4 witness: a row with sma_fast = sma_slow = 5 and
macd = macd_signal = 2. -/
theorem generate_signal_ties_neutral_witness :
    let row : IndicatorRow := ⟨10, some 5, some 5, none, some 2, some 2⟩
    (generate_signal row 70 30).sma_bias = "neutral" ∧
    (smaVote row.sma_fast row.sma_slow).2 = none ∧
    (generate_signal row 70 30).macd_bias = "neutral" ∧
    (macdVote row.macd row.macd_signal).2 = none := by
  intro row
  have h := generate_signal_ties_neutral row 70 30 5 2
  have h1 := h.1 rfl rfl
  have h2 := h.2 rfl rfl
  exact ⟨h1.1, h1.2, h2.1, h2.2⟩

/-! ### IndicatorEngine theorems -/

lemma getD_range_map (f : ℕ → Option ℚ) (n i : ℕ) :
    ((List.range n).map f).getD i none = if i < n then f i else none := by
  by_cases h : i < n
  · rw [List.getD_eq_getElem?_getD, List.getElem?_map]
    simp [List.getElem?_range h, h]
  · rw [List.getD_eq_getElem?_getD, List.getElem?_map,
      List.getElem?_eq_none (by simpa using Nat.le_of_not_lt h)]
    simp [h]

lemma length_smaColumn (w : ℕ) (closes : List ℚ) :
    (smaColumn w closes).length = closes.length := by
  simp [smaColumn]

lemma length_rsiColumn (w : ℕ) (closes : List ℚ) :
    (rsiColumn w closes).length = closes.length := by
  simp [rsiColumn]

lemma length_macdColumn (f s : ℕ) (closes : List ℚ) :
    (macdColumn f s closes).length = closes.length := by
  simp [macdColumn]

lemma length_signalColumn (f s g : ℕ) (closes : List ℚ) :
    (signalColumn f s g closes).length = closes.length := by
  simp [signalColumn]

lemma length_histColumn (f s g : ℕ) (closes : List ℚ) :
    (histColumn f s g closes).length = closes.length := by
  simp [histColumn]

/-- C6. In every row of the indicator table where the macd and
macd_signal columns are defined, the macd_hist column holds exactly
macd - macd_signal. -/
theorem macd_hist_eq_macd_sub_signal (f s g : ℕ) (closes : List ℚ)
    (i : ℕ) (m sv : ℚ)
    (hm : (macdColumn f s closes).getD i none = some m)
    (hs : (signalColumn f s g closes).getD i none = some sv) :
    (histColumn f s g closes).getD i none = some (m - sv) := by
  rw [macdColumn, getD_range_map] at hm
  rw [signalColumn, getD_range_map] at hs
  rw [histColumn, getD_range_map]
  by_cases h : i < closes.length
  · rw [if_pos h] at hm hs ⊢
    unfold histCell
    rw [hm, hs]
  · rw [if_neg h] at hm
    exact absurd hm (by simp)

/-- C6 witness: closes [1, 2, 3] with fast 1, slow 2, signal 1, row 1. -/
theorem macd_hist_eq_macd_sub_signal_witness :
    (macdColumn 1 2 [1, 2, 3]).getD 1 none = some (1 / 2) ∧
    (signalColumn 1 2 1 [1, 2, 3]).getD 1 none = some (1 / 2) ∧
    (histColumn 1 2 1 [1, 2, 3]).getD 1 none = some ((1 : ℚ) / 2 - 1 / 2) := by
  have hm : (macdColumn 1 2 [1, 2, 3]).getD 1 none = some (1 / 2) := by
    rw [macdColumn, getD_range_map]
    norm_num [macdCell, emaVal, mean]
  have hs : (signalColumn 1 2 1 [1, 2, 3]).getD 1 none = some (1 / 2) := by
    rw [signalColumn, getD_range_map]
    norm_num [signalCell, macdSeq, emaVal, mean, List.range_succ]
  exact ⟨hm, hs, macd_hist_eq_macd_sub_signal 1 2 1 [1, 2, 3] 1 (1 / 2)
    (1 / 2) hm hs⟩

/-- C2 counterexample: on the empty series `compute_indicators` does not
fail — no exception is raised anywhere in the source and the identifier
InsufficientDataError does not occur in the repository.  Evaluating at
the empty series returns the empty indicator table (zero rows, all six
indicator columns present and empty) rather than failing. -/
theorem compute_indicators_empty_returns_table :
    compute_indicators ⟨[], []⟩ 20 50 14 12 26 9
      = ⟨[], [("macd_hist", []), ("macd_signal", []), ("macd", []),
              ("rsi", []), ("sma_50", []), ("sma_20", [])]⟩ := by
  decide

/-- C2 amended: `compute_indicators` never raises; for every input series
(including the empty one) it returns a table that keeps the close column
and carries the six indicator columns, each with exactly one entry per
input bar. -/
theorem compute_indicators_one_row_per_bar (df : DataFrame)
    (f s r mf ms mg : ℕ) :
    (compute_indicators df f s r mf ms mg).close = df.close ∧
    (compute_indicators df f s r mf ms mg).cols
      = [("macd_hist", histColumn mf ms mg df.close),
         ("macd_signal", signalColumn mf ms mg df.close),
         ("macd", macdColumn mf ms df.close),
         ("rsi", rsiColumn r df.close),
         (smaColName s, smaColumn s df.close),
         (smaColName f, smaColumn f df.close)] ++ df.cols ∧
    (histColumn mf ms mg df.close).length = df.close.length ∧
    (signalColumn mf ms mg df.close).length = df.close.length ∧
    (macdColumn mf ms df.close).length = df.close.length ∧
    (rsiColumn r df.close).length = df.close.length ∧
    (smaColumn s df.close).length = df.close.length ∧
    (smaColumn f df.close).length = df.close.length :=
  ⟨rfl, rfl, length_histColumn .., length_signalColumn ..,
    length_macdColumn .., length_rsiColumn .., length_smaColumn ..,
    length_smaColumn ..⟩

lemma smaCell_defined_mono (w : ℕ) (closes : List ℚ) :
    ∀ i j, i ≤ j → (smaCell w closes i).isSome → (smaCell w closes j).isSome := by
  intro i j hij h
  unfold smaCell at h ⊢
  by_cases h1 : w ≤ i + 1
  · rw [if_pos (by omega)]; rfl
  · rw [if_neg h1] at h; simp at h

lemma rsiCell_defined_mono (w : ℕ) (closes : List ℚ) :
    ∀ i j, i ≤ j → (rsiCell w closes i).isSome → (rsiCell w closes j).isSome := by
  intro i j hij h
  unfold rsiCell at h ⊢
  by_cases h1 : w ≤ i
  · rw [if_pos (by omega)]; rfl
  · rw [if_neg h1] at h; simp at h

lemma macdCell_defined_mono (f s : ℕ) (closes : List ℚ) :
    ∀ i j, i ≤ j → (macdCell f s closes i).isSome →
      (macdCell f s closes j).isSome := by
  intro i j hij h
  unfold macdCell at h ⊢
  by_cases h1 : max f s ≤ i + 1
  · rw [if_pos (by omega)]; rfl
  · rw [if_neg h1] at h; simp at h

lemma signalCell_defined_mono (f s g : ℕ) (closes : List ℚ) :
    ∀ i j, i ≤ j → (signalCell f s g closes i).isSome →
      (signalCell f s g closes j).isSome := by
  intro i j hij h
  unfold signalCell at h ⊢
  by_cases h1 : max f s + g ≤ i + 2
  · rw [if_pos (by omega)]; rfl
  · rw [if_neg h1] at h; simp at h

lemma histCell_isSome_eq (f s g : ℕ) (closes : List ℚ) (i : ℕ) :
    (histCell f s g closes i).isSome
      = ((macdCell f s closes i).isSome
          && (signalCell f s g closes i).isSome) := by
  unfold histCell
  cases macdCell f s closes i <;> cases signalCell f s g closes i <;> rfl

lemma histCell_defined_mono (f s g : ℕ) (closes : List ℚ) :
    ∀ i j, i ≤ j → (histCell f s g closes i).isSome →
      (histCell f s g closes j).isSome := by
  intro i j hij h
  rw [histCell_isSome_eq, Bool.and_eq_true] at h ⊢
  exact ⟨macdCell_defined_mono f s closes i j hij h.1,
    signalCell_defined_mono f s g closes i j hij h.2⟩

lemma column_defined_mono (c : ℕ → Option ℚ)
    (hc : ∀ i j, i ≤ j → (c i).isSome → (c j).isSome)
    (n i j : ℕ) (hij : i ≤ j) (hj : j < n)
    (hdef : (((List.range n).map c).getD i none).isSome) :
    (((List.range n).map c).getD j none).isSome := by
  rw [getD_range_map] at hdef ⊢
  rw [if_pos hj]
  by_cases hi : i < n
  · rw [if_pos hi] at hdef
    exact hc i j hij hdef
  · rw [if_neg hi] at hdef
    simp at hdef

/-- C9. Monotonic warm-up: in every indicator column of the table
produced by `compute_indicators`, if the value is defined at row i then
it is defined at every later row j; the undefined entries form a
contiguous leading prefix. -/
theorem compute_indicators_warmup_monotone (df : DataFrame)
    (f s r mf ms mg : ℕ) (name : String) (col : List (Option ℚ))
    (i j : ℕ) (hbase : df.cols = []) (hij : i ≤ j) (hj : j < col.length)
    (hcol : getCol (compute_indicators df f s r mf ms mg) name = some col)
    (hdef : (col.getD i none).isSome) :
    (col.getD j none).isSome := by
  rw [getCol] at hcol
  obtain ⟨p, hp, hps⟩ := Option.map_eq_some'.mp hcol
  have hmem := List.mem_of_find?_eq_some hp
  have hcols : (compute_indicators df f s r mf ms mg).cols
      = [("macd_hist", histColumn mf ms mg df.close),
         ("macd_signal", signalColumn mf ms mg df.close),
         ("macd", macdColumn mf ms df.close),
         ("rsi", rsiColumn r df.close),
         (smaColName s, smaColumn s df.close),
         (smaColName f, smaColumn f df.close)] := by
    simp [compute_indicators, setCol, hbase]
  rw [hcols] at hmem
  simp only [List.mem_cons, List.not_mem_nil, or_false] at hmem
  subst hps
  rcases hmem with h | h | h | h | h | h <;> rw [h] at hdef hj ⊢
  · exact column_defined_mono _ (histCell_defined_mono mf ms mg df.close)
      _ i j hij (by simpa [length_histColumn] using hj) hdef
  · exact column_defined_mono _ (signalCell_defined_mono mf ms mg df.close)
      _ i j hij (by simpa [length_signalColumn] using hj) hdef
  · exact column_defined_mono _ (macdCell_defined_mono mf ms df.close)
      _ i j hij (by simpa [length_macdColumn] using hj) hdef
  · exact column_defined_mono _ (rsiCell_defined_mono r df.close)
      _ i j hij (by simpa [length_rsiColumn] using hj) hdef
  · exact column_defined_mono _ (smaCell_defined_mono s df.close)
      _ i j hij (by simpa [length_smaColumn] using hj) hdef
  · exact column_defined_mono _ (smaCell_defined_mono f df.close)
      _ i j hij (by simpa [length_smaColumn] using hj) hdef

/-- C9 witness: the rsi column of the table for closes [1, 2, 3] with all
windows 1, defined at row 1, hence defined at row 2. -/
theorem compute_indicators_warmup_monotone_witness :
    (⟨[1, 2, 3], []⟩ : DataFrame).cols = [] ∧ 1 ≤ 2 ∧
    2 < (rsiColumn 1 [1, 2, 3]).length ∧
    getCol (compute_indicators ⟨[1, 2, 3], []⟩ 1 1 1 1 1 1) "rsi"
      = some (rsiColumn 1 [1, 2, 3]) ∧
    ((rsiColumn 1 [1, 2, 3]).getD 1 none).isSome ∧
    ((rsiColumn 1 [1, 2, 3]).getD 2 none).isSome :=
  ⟨rfl, by decide, by decide, by rfl, by decide,
    compute_indicators_warmup_monotone ⟨[1, 2, 3], []⟩ 1 1 1 1 1 1 "rsi"
      (rsiColumn 1 [1, 2, 3]) 1 2 rfl (by decide) (by decide) (by rfl)
      (by decide)⟩

lemma gains_nonneg (closes : List ℚ) : ∀ x ∈ gains closes, 0 ≤ x := by
  intro x hx
  obtain ⟨p, _, hp⟩ := List.mem_map.mp hx
  rw [← hp]
  exact le_max_right _ _

lemma losses_nonneg (closes : List ℚ) : ∀ x ∈ losses closes, 0 ≤ x := by
  intro x hx
  obtain ⟨p, _, hp⟩ := List.mem_map.mp hx
  rw [← hp]
  exact le_max_right _ _

lemma mean_nonneg (xs : List ℚ) (h : ∀ x ∈ xs, 0 ≤ x) : 0 ≤ mean xs :=
  div_nonneg (List.sum_nonneg h) (Nat.cast_nonneg _)

lemma wilder_foldl_nonneg (w : ℕ) (hw : 0 < w) :
    ∀ (l : List ℚ) (acc : ℚ), 0 ≤ acc → (∀ x ∈ l, 0 ≤ x) →
      0 ≤ l.foldl (fun a x => (a * ((w : ℚ) - 1) + x) / w) acc := by
  intro l
  induction l with
  | nil => intro acc hacc _; exact hacc
  | cons y ys ih =>
    intro acc hacc hl
    have hw1 : (1 : ℚ) ≤ (w : ℚ) := by exact_mod_cast hw
    refine ih _ ?_ (fun x hx => hl x (List.mem_cons_of_mem _ hx))
    have hy : 0 ≤ y := hl y (List.mem_cons_self _ _)
    have : 0 ≤ acc * ((w : ℚ) - 1) :=
      mul_nonneg hacc (by linarith)
    exact div_nonneg (by linarith) (by linarith)

lemma wilderSmooth_nonneg (w : ℕ) (hw : 0 < w) (xs : List ℚ)
    (hxs : ∀ x ∈ xs, 0 ≤ x) (k : ℕ) : 0 ≤ wilderSmooth w xs k := by
  unfold wilderSmooth
  refine wilder_foldl_nonneg w hw _ _ ?_ ?_
  · exact mean_nonneg _ (fun x hx => hxs x (List.mem_of_mem_take hx))
  · exact fun x hx =>
      hxs x (List.mem_of_mem_drop (List.mem_of_mem_take hx))

/-- C7. Every defined rsi value in the table produced by
`compute_indicators` with a positive rsi period lies in the closed
interval [0, 100]. -/
theorem rsi_defined_in_unit_interval (w : ℕ) (closes : List ℚ) (i : ℕ)
    (v : ℚ) (hw : 0 < w)
    (hv : (rsiColumn w closes).getD i none = some v) :
    0 ≤ v ∧ v ≤ 100 := by
  rw [rsiColumn, getD_range_map] at hv
  by_cases hi : i < closes.length
  · rw [if_pos hi] at hv
    unfold rsiCell at hv
    by_cases hwi : w ≤ i
    · rw [if_pos hwi] at hv
      set g := wilderSmooth w (gains closes) (i - w) with hg
      set l := wilderSmooth w (losses closes) (i - w) with hl
      have hgnn : 0 ≤ g := wilderSmooth_nonneg w hw _ (gains_nonneg closes) _
      have hlnn : 0 ≤ l := wilderSmooth_nonneg w hw _ (losses_nonneg closes) _
      have hveq : v = 100 * g / (g + l) := by
        simpa using hv.symm
      rw [hveq]
      by_cases h0 : g + l = 0
      · rw [h0, div_zero]
        norm_num
      · have hpos : 0 < g + l := lt_of_le_of_ne (by linarith) (Ne.symm h0)
        constructor
        · exact div_nonneg (by linarith) (le_of_lt hpos)
        · rw [div_le_iff₀ hpos]
          linarith
    · rw [if_neg hwi] at hv
      exact absurd hv (by simp)
  · rw [if_neg hi] at hv
    exact absurd hv (by simp)

/-- C7 witness: rsi period 1 on closes [1, 2], row 1 gives rsi 100. -/
theorem rsi_defined_in_unit_interval_witness :
    0 < 1 ∧ (rsiColumn 1 [1, 2]).getD 1 none = some 100 ∧
    (0 : ℚ) ≤ 100 ∧ (100 : ℚ) ≤ 100 := by
  have hv : (rsiColumn 1 [1, 2]).getD 1 none = some 100 := by
    rw [rsiColumn, getD_range_map]
    norm_num [rsiCell, wilderSmooth, gains, losses, mean]
  exact ⟨Nat.one_pos, hv,
    rsi_defined_in_unit_interval 1 [1, 2] 1 100 Nat.one_pos hv⟩

lemma setCol_close (df : DataFrame) (n : String) (v : List (Option ℚ)) :
    (setCol df n v).close = df.close := rfl

lemma heapSetCol_length (h : Heap) (r : ℕ) (n : String)
    (v : List (Option ℚ)) : (heapSetCol h r n v).length = h.length := by
  simp [heapSetCol]

lemma heapSetCol_getD (h : Heap) (r : ℕ) (n : String) (v : List (Option ℚ))
    (hr : r < h.length) :
    (heapSetCol h r n v).getD r default = setCol (h.getD r default) n v := by
  unfold heapSetCol
  rw [List.getD_eq_getElem?_getD, List.getElem?_set_self]
  · rfl
  · exact hr

lemma heapSetCol_ne (h : Heap) (r q : ℕ) (n : String) (v : List (Option ℚ))
    (hne : r ≠ q) : (heapSetCol h r n v)[q]? = h[q]? := by
  unfold heapSetCol
  rw [List.getElem?_set_ne hne]

/-- C8. `compute_indicators` has no side effects on the caller's frame:
in the heap semantics the object at the argument's address is unchanged
by the call (the copy at source line 28 is what gets mutated), and the
returned object is the pure function `compute_indicators` of the input
dataframe and the configuration parameters alone. -/
theorem compute_indicators_no_side_effects (h : Heap) (r : ℕ)
    (f s rp mf ms mg : ℕ) (hr : r < h.length) :
    (compute_indicators_st h r f s rp mf ms mg).1[r]? = h[r]? ∧
    (compute_indicators_st h r f s rp mf ms mg).1.getD
        (compute_indicators_st h r f s rp mf ms mg).2 default
      = compute_indicators (h.getD r default) f s rp mf ms mg := by
  have hL : r ≠ h.length := Nat.ne_of_lt hr
  unfold compute_indicators_st
  simp only [dfCopy]
  set d0 := h.getD r default with hd0
  have e0 : (h ++ [d0]).getD h.length default = d0 := by
    simp [List.getD_eq_getElem?_getD]
  have hlen1 : h.length < (h ++ [d0]).length := by simp
  rw [e0]
  have e1 : (heapSetCol (h ++ [d0]) h.length (smaColName f)
      (smaColumn f d0.close)).getD h.length default
      = setCol d0 (smaColName f) (smaColumn f d0.close) := by
    rw [heapSetCol_getD _ _ _ _ hlen1, e0]
  rw [e1]
  simp only [setCol_close]
  have hlen2 : h.length < (heapSetCol (h ++ [d0]) h.length (smaColName f)
      (smaColumn f d0.close)).length := by
    rw [heapSetCol_length]; exact hlen1
  have e2 : (heapSetCol (heapSetCol (h ++ [d0]) h.length (smaColName f)
        (smaColumn f d0.close)) h.length (smaColName s)
        (smaColumn s d0.close)).getD h.length default
      = setCol (setCol d0 (smaColName f) (smaColumn f d0.close))
          (smaColName s) (smaColumn s d0.close) := by
    rw [heapSetCol_getD _ _ _ _ hlen2, e1]
  rw [e2]
  simp only [setCol_close]
  have hlen3 : h.length < (heapSetCol (heapSetCol (h ++ [d0]) h.length
      (smaColName f) (smaColumn f d0.close)) h.length (smaColName s)
      (smaColumn s d0.close)).length := by
    rw [heapSetCol_length]; exact hlen2
  have e3 : (heapSetCol (heapSetCol (heapSetCol (h ++ [d0]) h.length
        (smaColName f) (smaColumn f d0.close)) h.length (smaColName s)
        (smaColumn s d0.close)) h.length "rsi"
        (rsiColumn rp d0.close)).getD h.length default
      = setCol (setCol (setCol d0 (smaColName f) (smaColumn f d0.close))
          (smaColName s) (smaColumn s d0.close)) "rsi"
          (rsiColumn rp d0.close) := by
    rw [heapSetCol_getD _ _ _ _ hlen3, e2]
  rw [e3]
  simp only [setCol_close]
  have hlen4 : h.length < (heapSetCol (heapSetCol (heapSetCol (h ++ [d0])
      h.length (smaColName f) (smaColumn f d0.close)) h.length
      (smaColName s) (smaColumn s d0.close)) h.length "rsi"
      (rsiColumn rp d0.close)).length := by
    rw [heapSetCol_length]; exact hlen3
  have e4 : (heapSetCol (heapSetCol (heapSetCol (heapSetCol (h ++ [d0])
        h.length (smaColName f) (smaColumn f d0.close)) h.length
        (smaColName s) (smaColumn s d0.close)) h.length "rsi"
        (rsiColumn rp d0.close)) h.length "macd"
        (macdColumn mf ms d0.close)).getD h.length default
      = setCol (setCol (setCol (setCol d0 (smaColName f)
          (smaColumn f d0.close)) (smaColName s) (smaColumn s d0.close))
          "rsi" (rsiColumn rp d0.close)) "macd"
          (macdColumn mf ms d0.close) := by
    rw [heapSetCol_getD _ _ _ _ hlen4, e3]
  rw [e4]
  simp only [setCol_close]
  have hlen5 : h.length < (heapSetCol (heapSetCol (heapSetCol (heapSetCol
      (h ++ [d0]) h.length (smaColName f) (smaColumn f d0.close)) h.length
      (smaColName s) (smaColumn s d0.close)) h.length "rsi"
      (rsiColumn rp d0.close)) h.length "macd"
      (macdColumn mf ms d0.close)).length := by
    rw [heapSetCol_length]; exact hlen4
  have e5 : (heapSetCol (heapSetCol (heapSetCol (heapSetCol (heapSetCol
        (h ++ [d0]) h.length (smaColName f) (smaColumn f d0.close))
        h.length (smaColName s) (smaColumn s d0.close)) h.length "rsi"
        (rsiColumn rp d0.close)) h.length "macd"
        (macdColumn mf ms d0.close)) h.length "macd_signal"
        (signalColumn mf ms mg d0.close)).getD h.length default
      = setCol (setCol (setCol (setCol (setCol d0 (smaColName f)
          (smaColumn f d0.close)) (smaColName s) (smaColumn s d0.close))
          "rsi" (rsiColumn rp d0.close)) "macd"
          (macdColumn mf ms d0.close)) "macd_signal"
          (signalColumn mf ms mg d0.close) := by
    rw [heapSetCol_getD _ _ _ _ hlen5, e4]
  rw [e5]
  simp only [setCol_close]
  have hlen6 : h.length < (heapSetCol (heapSetCol (heapSetCol (heapSetCol
      (heapSetCol (h ++ [d0]) h.length (smaColName f)
      (smaColumn f d0.close)) h.length (smaColName s)
      (smaColumn s d0.close)) h.length "rsi" (rsiColumn rp d0.close))
      h.length "macd" (macdColumn mf ms d0.close)) h.length "macd_signal"
      (signalColumn mf ms mg d0.close)).length := by
    rw [heapSetCol_length]; exact hlen5
  constructor
  · rw [heapSetCol_ne _ _ _ _ _ hL.symm, heapSetCol_ne _ _ _ _ _ hL.symm,
      heapSetCol_ne _ _ _ _ _ hL.symm, heapSetCol_ne _ _ _ _ _ hL.symm,
      heapSetCol_ne _ _ _ _ _ hL.symm, heapSetCol_ne _ _ _ _ _ hL.symm,
      List.getElem?_append, if_pos hr]
  · rw [heapSetCol_getD _ _ _ _ hlen6, e5]
    rfl

/-- C8 witness: a one-object heap. -/
theorem compute_indicators_no_side_effects_witness :
    0 < ([⟨[1, 2], []⟩] : Heap).length ∧
    ((compute_indicators_st [⟨[1, 2], []⟩] 0 1 1 1 1 1 1).1[0]?
        = ([⟨[1, 2], []⟩] : Heap)[0]? ∧
      (compute_indicators_st [⟨[1, 2], []⟩] 0 1 1 1 1 1 1).1.getD
          (compute_indicators_st [⟨[1, 2], []⟩] 0 1 1 1 1 1 1).2 default
        = compute_indicators (([⟨[1, 2], []⟩] : Heap).getD 0 default)
            1 1 1 1 1 1) :=
  ⟨by decide,
    compute_indicators_no_side_effects [⟨[1, 2], []⟩] 0 1 1 1 1 1 1
      (by decide)⟩

/-- C10. On a row whose five indicator fields are all undefined (NaN),
`generate_signal` returns normally: overall "neutral", all three biases
"neutral", the close price, and the undefined raw rsi/macd/macd_signal
values passed through unchanged into the details. -/
theorem generate_signal_total_on_all_nan (c upper lower : ℚ) :
    generate_signal ⟨c, none, none, none, none, none⟩ upper lower
      = ⟨"neutral", "neutral", "neutral", "neutral", c, none, none, none⟩ :=
  rfl
